import Mathlib

/-!
Verification of the `entrait` procedural-macro input layer
(`entrait_macros/src/input.rs`) against its specification.

The embedding mirrors the `syn`-level data the source manipulates:
a function signature is a list of `FnArg`s (receivers or typed
patterns), the entrait attribute is a token list, and every fallible
operation returns `Except SynError`.
-/

namespace Entrait

/-- A (simplified) `syn::Type`: a path type, a reference type, or an
`impl Trait` bound, which is all the repository's signatures use. -/
inductive Ty where
  | path (name : String)
  | ref (inner : Ty)
  | implTrait (bound : String)
  deriving DecidableEq

/-- A `syn::Pat` as it occurs in function parameters: a plain
identifier binding, a wildcard, or a destructuring (tuple) pattern. -/
inductive Pat where
  | ident (name : String)
  | wild
  | tuplePat (names : List String)
  deriving DecidableEq

/-- A `syn::FnArg`: either a receiver (`self` / `&self` / `&mut self`)
or a typed pattern `pat : ty`. -/
inductive FnArg where
  | receiver (reference : Bool) (mutable : Bool)
  | typed (pat : Pat) (ty : Ty)
  deriving DecidableEq

/-- The result of `syn::parse_quote! { &self }` in
`extract_trait_fn_inputs`: a by-reference, non-mut receiver. -/
def amp_self : FnArg := FnArg.receiver true false

/-- A `syn::Signature`: asyncness, the function identifier, the
parameter list, and the return type (`none` is the default `()`). -/
structure Signature where
  asyncness : Bool
  ident : String
  inputs : List FnArg
  output : Option Ty
  deriving DecidableEq

/-- A `syn::Error`: either one constructed by the macro itself via
`syn::Error::new(span, msg)` (`custom`), or one produced by a failing
token parse inside `syn` (`parseError`). -/
inductive SynError where
  | custom (msg : String)
  | parseError (expected : String)
  deriving DecidableEq

/-- `extract_trait_fn_inputs` (input.rs lines 127-143): clone the
signature's inputs, error if empty, overwrite the first element of the
clone with `&self`, and return the rewritten list (as tokens). -/
def extract_trait_fn_inputs (sig : Signature) : Except SynError (List FnArg) :=
  let inputs := sig.inputs
  if inputs.isEmpty then
    Except.error (SynError.custom ("Function must take at least one parameter"))
  else
    Except.ok (inputs.set 0 amp_self)

/-- A call argument token produced by `extract_call_param_list`:
either the literal `self` or a plain identifier. -/
inductive CallArg where
  | selfArg
  | ident (name : String)
  deriving DecidableEq

/-- The closure inside `extract_call_param_list` (input.rs lines
150-170), applied to `(index, arg)` pairs from `enumerate()`. -/
def call_param_closure (index : Nat) (arg : FnArg) : Except SynError CallArg :=
  if index = 0 then
    Except.ok CallArg.selfArg
  else
    match arg with
    | FnArg.receiver _ _ =>
        Except.error (SynError.custom ("Unexpected receiver arg"))
    | FnArg.typed pat _ =>
        match pat with
        | Pat.ident name => Except.ok (CallArg.ident name)
        | _ => Except.error (SynError.custom ("Expected ident for function argument"))

/-- Rust's `collect::<Result<Vec<_>, _>>()`: succeed with the list of
values, or stop at the first error in iteration order. -/
def collectResults {α : Type} : List (Except SynError α) → Except SynError (List α)
  | [] => Except.ok []
  | x :: xs =>
    match x with
    | Except.error e => Except.error e
    | Except.ok a =>
      match collectResults xs with
      | Except.error e => Except.error e
      | Except.ok rest => Except.ok (a :: rest)

/-- `extract_call_param_list` (input.rs lines 145-176): enumerate the
signature's inputs, map each through the closure, and collect. -/
def extract_call_param_list (sig : Signature) : Except SynError (List CallArg) :=
  collectResults (sig.inputs.enum.map (fun p => call_param_closure p.1 p.2))

/-- A `syn::Visibility` on the decorated function. -/
inductive Visibility where
  | inherited
  | pub
  | pubCrate
  deriving DecidableEq

/-- `EntraitFn` (input.rs lines 34-43): the parsed decorated function
together with the two precomputed token streams. -/
structure EntraitFn where
  fn_attrs : List String
  fn_vis : Visibility
  fn_sig : Signature
  fn_body : String
  trait_fn_inputs : List FnArg
  call_param_list : List CallArg
  deriving DecidableEq

/-- `impl Parse for EntraitFn` (input.rs lines 106-125): store the
parsed attributes, visibility, signature and body tokens verbatim, and
compute the two derived token streams from the signature; any error in
either computation aborts the whole parse. -/
def EntraitFn.parse (fn_attrs : List String) (fn_vis : Visibility) (fn_sig : Signature)
    (fn_body : String) : Except SynError EntraitFn :=
  match extract_trait_fn_inputs fn_sig with
  | Except.error e => Except.error e
  | Except.ok trait_fn_inputs =>
    match extract_call_param_list fn_sig with
    | Except.error e => Except.error e
    | Except.ok call_param_list =>
      Except.ok { fn_attrs := fn_attrs, fn_vis := fn_vis, fn_sig := fn_sig,
                  fn_body := fn_body, trait_fn_inputs := trait_fn_inputs,
                  call_param_list := call_param_list }

/-- A token of the entrait attribute argument stream, as consumed by
`impl Parse for EntraitAttr` and `impl Parse for Extension`. A whole
`syn::Type` counts as one token because `input.parse::<syn::Type>()`
consumes it in one step. -/
inductive Tok where
  | ident (s : String)
  | forKw
  | comma
  | eq
  | litBool (b : Bool)
  | litInt (n : Nat)
  | tyTok (t : Ty)
  deriving DecidableEq

/-- `Extension` (input.rs lines 24-29): the parsed "keyword args". -/
inductive Extension where
  | Debug (enabled : Bool)
  | AsyncTrait (enabled : Bool)
  | Mockable (enabled : Bool)
  | MockDepsAs (ident : String)
  deriving DecidableEq

/-- `EntraitAttr` (input.rs lines 12-19): the parsed attribute. -/
structure EntraitAttr where
  trait_ident : String
  impl_target_type : Option Ty
  debug : Bool
  async_trait : Bool
  mockable : Bool
  mock_deps_as : Option String
  deriving DecidableEq

/-- `input.parse::<syn::Ident>()`: consume one identifier token. -/
def parseIdentTok : List Tok → Except SynError (String × List Tok)
  | Tok.ident s :: rest => Except.ok (s, rest)
  | _ => Except.error (SynError.parseError ("expected identifier"))

/-- `input.parse::<syn::LitBool>()`: consume one boolean literal. -/
def parseLitBoolTok : List Tok → Except SynError (Bool × List Tok)
  | Tok.litBool b :: rest => Except.ok (b, rest)
  | _ => Except.error (SynError.parseError ("expected boolean literal"))

/-- `input.parse::<syn::Type>()`: consume one type token. -/
def parseTypeTok : List Tok → Except SynError (Ty × List Tok)
  | Tok.tyTok t :: rest => Except.ok (t, rest)
  | _ => Except.error (SynError.parseError ("expected type"))

/-- `impl Parse for Extension` (input.rs lines 83-104): read the key
identifier, then unconditionally require `=`, then dispatch on the key
string; an unrecognized key yields the custom error (with the source's
own "Unkonwn" typo preserved). -/
def Extension.parse (input : List Tok) : Except SynError (Extension × List Tok) :=
  match input with
  | Tok.ident ident_string :: rest =>
    match rest with
    | Tok.eq :: rest2 =>
      if ident_string = "debug" then
        match rest2 with
        | Tok.litBool b :: rest3 => Except.ok (Extension.Debug b, rest3)
        | _ => Except.error (SynError.parseError ("expected boolean literal"))
      else if ident_string = "async_trait" then
        match rest2 with
        | Tok.litBool b :: rest3 => Except.ok (Extension.AsyncTrait b, rest3)
        | _ => Except.error (SynError.parseError ("expected boolean literal"))
      else if ident_string = "mockable" then
        match rest2 with
        | Tok.litBool b :: rest3 => Except.ok (Extension.Mockable b, rest3)
        | _ => Except.error (SynError.parseError ("expected boolean literal"))
      else if ident_string = "mock_deps_as" then
        match rest2 with
        | Tok.ident i :: rest3 => Except.ok (Extension.MockDepsAs i, rest3)
        | _ => Except.error (SynError.parseError ("expected identifier"))
      else
        Except.error (SynError.custom ("Unkonwn entrait extension \"" ++ ident_string ++ "\""))
    | _ => Except.error (SynError.parseError ("expected token eq"))
  | _ => Except.error (SynError.parseError ("expected identifier"))

/-- A successful `Extension::parse` consumes at least the key and the
`=` token, so the remaining stream is strictly shorter. -/
theorem Extension.parse_consumes {input : List Tok} {e : Extension} {rest2 : List Tok}
    (h : Extension.parse input = Except.ok (e, rest2)) : rest2.length < input.length := by
  unfold Extension.parse at h
  repeat' split at h
  all_goals simp_all
  all_goals omega

/-- The `while input.peek(Comma)` loop of `impl Parse for EntraitAttr`
(input.rs lines 61-70): as long as a comma is next, consume it, parse
one `Extension`, and overwrite the corresponding local variable. -/
def ext_loop (debug async_trait mockable : Bool) (mock_deps : Option String)
    (input : List Tok) :
    Except SynError ((Bool × Bool × Bool × Option String) × List Tok) :=
  match input with
  | Tok.comma :: rest =>
    match h : Extension.parse rest with
    | Except.error e => Except.error e
    | Except.ok (Extension.Debug b, rest2) => ext_loop b async_trait mockable mock_deps rest2
    | Except.ok (Extension.AsyncTrait b, rest2) => ext_loop debug b mockable mock_deps rest2
    | Except.ok (Extension.Mockable b, rest2) => ext_loop debug async_trait b mock_deps rest2
    | Except.ok (Extension.MockDepsAs i, rest2) =>
        ext_loop debug async_trait mockable (some i) rest2
  | _ => Except.ok ((debug, async_trait, mockable, mock_deps), input)
termination_by input.length
decreasing_by
  all_goals
    have hlt := Extension.parse_consumes h
    simp only [List.length_cons]
    omega

/-- The `if input.peek(syn::token::For)` block of `EntraitAttr::parse`
(input.rs lines 49-54): when the next token is `for`, consume it and
parse a type as the implementation target; otherwise `None`. -/
def parse_impl_target (input : List Tok) : Except SynError (Option Ty × List Tok) :=
  match input with
  | Tok.forKw :: rest =>
    match parseTypeTok rest with
    | Except.error e => Except.error e
    | Except.ok (t, rest2) => Except.ok (some t, rest2)
  | _ => Except.ok (none, input)

/-- `impl Parse for EntraitAttr` (input.rs lines 45-81): trait ident,
optional `for Type` clause, then the comma-driven extension loop
starting from all-default option values. -/
def EntraitAttr.parse (input : List Tok) : Except SynError (EntraitAttr × List Tok) :=
  match parseIdentTok input with
  | Except.error e => Except.error e
  | Except.ok (trait_ident, input1) =>
    match parse_impl_target input1 with
    | Except.error e => Except.error e
    | Except.ok (impl_target_type, input2) =>
      match ext_loop false false false none input2 with
      | Except.error e => Except.error e
      | Except.ok ((debug, async_trait, mockable, mock_deps), input3) =>
        Except.ok ({ trait_ident := trait_ident, impl_target_type := impl_target_type,
                     debug := debug, async_trait := async_trait, mockable := mockable,
                     mock_deps_as := mock_deps }, input3)

/-- A value that can stand on the right of `key = value` in the
attribute's option list. -/
inductive ExtValue where
  | litBool (b : Bool)
  | identVal (s : String)
  | litInt (n : Nat)
  deriving DecidableEq

/-- One item of the option list: a key, either bare (`none`) or with
an `= value` assignment. -/
abbrev ExtItem : Type := String × Option ExtValue

/-- Render an `ExtValue` as the single token it occupies. -/
def valueTok : ExtValue → Tok
  | ExtValue.litBool b => Tok.litBool b
  | ExtValue.identVal s => Tok.ident s
  | ExtValue.litInt n => Tok.litInt n

/-- Render one option item as tokens (without its leading comma). -/
def renderItem : ExtItem → List Tok
  | (k, none) => [Tok.ident k]
  | (k, some v) => [Tok.ident k, Tok.eq, valueTok v]

/-- Render an option list as the token stream that follows the trait
identifier: each item is preceded by a comma. -/
def renderItems : List ExtItem → List Tok
  | [] => []
  | it :: rest => Tok.comma :: (renderItem it ++ renderItems rest)

/-- The four keys `Extension::parse` recognizes. -/
def recognizedKey (s : String) : Bool :=
  s = "debug" || s = "async_trait" || s = "mockable" || s = "mock_deps_as"

/-- Whether an item's value has the shape `Extension::parse` demands
for its (recognized) key: a boolean literal for the three boolean
keys, an identifier for `mock_deps_as`; bare items are never
well-shaped because the parser unconditionally requires `=`. -/
def wellShapedItem : ExtItem → Bool
  | (k, v) =>
    if k = "mock_deps_as" then
      match v with
      | some (ExtValue.identVal _) => true
      | _ => false
    else
      match v with
      | some (ExtValue.litBool _) => true
      | _ => false

/-- An item that `Extension::parse` accepts: recognized key with a
well-shaped `= value` assignment. -/
def validItem (it : ExtItem) : Bool :=
  recognizedKey it.1 && wellShapedItem it

/-- The `Extension` value produced for a valid item (garbage default
on the unreachable ill-shaped branches). -/
def extOf (k : String) (v : ExtValue) : Extension :=
  if k = "debug" then
    match v with
    | ExtValue.litBool b => Extension.Debug b
    | _ => Extension.Debug false
  else if k = "async_trait" then
    match v with
    | ExtValue.litBool b => Extension.AsyncTrait b
    | _ => Extension.AsyncTrait false
  else if k = "mockable" then
    match v with
    | ExtValue.litBool b => Extension.Mockable b
    | _ => Extension.Mockable false
  else
    match v with
    | ExtValue.identVal s => Extension.MockDepsAs s
    | _ => Extension.MockDepsAs ""

/-- The final value of a boolean option variable after the loop has
threaded through `items`, starting from `dflt`: the last boolean
assignment to `key` wins. -/
def lastBoolOr (dflt : Bool) (key : String) : List ExtItem → Bool
  | [] => dflt
  | (k, v) :: rest =>
    if k = key then
      match v with
      | some (ExtValue.litBool b) => lastBoolOr b key rest
      | _ => lastBoolOr dflt key rest
    else
      lastBoolOr dflt key rest

/-- The final value of an identifier option variable after the loop,
starting from `dflt`: the last identifier assignment to `key` wins. -/
def lastIdentOr (dflt : Option String) (key : String) : List ExtItem → Option String
  | [] => dflt
  | (k, v) :: rest =>
    if k = key then
      match v with
      | some (ExtValue.identVal s) => lastIdentOr (some s) key rest
      | _ => lastIdentOr dflt key rest
    else
      lastIdentOr dflt key rest

/-- The loop stops (successfully) on an empty remaining stream. -/
theorem ext_loop_nil (debug async_trait mockable : Bool) (mock_deps : Option String) :
    ext_loop debug async_trait mockable mock_deps [] =
      Except.ok ((debug, async_trait, mockable, mock_deps), []) := by
  rw [ext_loop.eq_def]

/-- A failing `Extension::parse` aborts the loop with the same error. -/
theorem ext_loop_parse_err (debug async_trait mockable : Bool) (mock_deps : Option String)
    (rest : List Tok) (e : SynError) (h : Extension.parse rest = Except.error e) :
    ext_loop debug async_trait mockable mock_deps (Tok.comma :: rest) = Except.error e := by
  rw [ext_loop.eq_def]
  split
  · rename_i heq
    injection heq with h1 h2
    subst h2
    split <;> simp_all
  · rename_i hne
    exact absurd rfl (hne rest)

/-- One successful loop iteration: consume the comma and the parsed
extension, and thread the updated option state through. -/
theorem ext_loop_parse_ok (debug async_trait mockable : Bool) (mock_deps : Option String)
    (rest rest2 : List Tok) (ext : Extension)
    (h : Extension.parse rest = Except.ok (ext, rest2)) :
    ext_loop debug async_trait mockable mock_deps (Tok.comma :: rest) =
      match ext with
      | Extension.Debug b => ext_loop b async_trait mockable mock_deps rest2
      | Extension.AsyncTrait b => ext_loop debug b mockable mock_deps rest2
      | Extension.Mockable b => ext_loop debug async_trait b mock_deps rest2
      | Extension.MockDepsAs i => ext_loop debug async_trait mockable (some i) rest2 := by
  rw [ext_loop.eq_def]
  split
  · rename_i heq
    injection heq with h1 h2
    subst h2
    split
    · simp_all
    all_goals
      rename_i heq2
      rw [h] at heq2
      injection heq2 with hp
      injection hp with he hr
      subst he
      subst hr
      rfl
  · rename_i hne
    exact absurd rfl (hne rest)

/-- `Extension::parse` on a valid item consumes exactly the item's
tokens and yields the corresponding `Extension` value. -/
theorem ep_render_valid (k : String) (v : ExtValue) (tl : List Tok)
    (hv : validItem (k, some v) = true) :
    Extension.parse (renderItem (k, some v) ++ tl) = Except.ok (extOf k v, tl) := by
  have hv2 := hv
  unfold validItem recognizedKey wellShapedItem at hv2
  simp only [Bool.and_eq_true, Bool.or_eq_true, decide_eq_true_eq] at hv2
  obtain ⟨hk, hshape⟩ := hv2
  rcases hk with ((hk | hk) | hk) | hk <;> subst hk <;>
    cases v <;> simp_all [Extension.parse, renderItem, valueTok, extOf]

/-- `Extension::parse` on an unrecognized key with an `= value`
assignment fails with the unknown-extension error; the value itself is
never examined. -/
theorem ep_render_unknown (k : String) (v : ExtValue) (tl : List Tok)
    (hk : recognizedKey k = false) :
    Extension.parse (renderItem (k, some v) ++ tl) =
      Except.error (SynError.custom ("Unkonwn entrait extension \"" ++ k ++ "\"")) := by
  unfold recognizedKey at hk
  simp only [Bool.or_eq_false_iff, decide_eq_false_iff_not] at hk
  obtain ⟨⟨⟨h1, h2⟩, h3⟩, h4⟩ := hk
  cases v <;> simp [Extension.parse, renderItem, valueTok, h1, h2, h3, h4]

/-- `Extension::parse` on a bare key (no `= value`) fails with the
missing-`=` parse error, whatever the key is, provided the following
tokens do not accidentally start with `=` (they start with a comma or
end the stream in any rendered option list). -/
theorem ep_render_bare (k : String) (tl : List Tok)
    (htl : ∀ r, tl ≠ Tok.eq :: r) :
    Extension.parse (renderItem (k, none) ++ tl) =
      Except.error (SynError.parseError ("expected token eq")) := by
  rcases tl with _ | ⟨t, r⟩
  · simp [Extension.parse, renderItem]
  · cases t
    case eq => exact absurd rfl (htl r)
    all_goals simp [Extension.parse, renderItem]

/-- `Extension::parse` on a recognized key whose value has the wrong
shape fails (with the corresponding value parse error). -/
theorem ep_render_illshaped (k : String) (v : ExtValue) (tl : List Tok)
    (hk : recognizedKey k = true) (hbad : wellShapedItem (k, some v) = false) :
    ∃ e, Extension.parse (renderItem (k, some v) ++ tl) = Except.error e := by
  unfold recognizedKey at hk
  simp only [Bool.or_eq_true, decide_eq_true_eq] at hk
  unfold wellShapedItem at hbad
  rcases hk with ((hk | hk) | hk) | hk <;> subst hk <;>
    cases v <;> simp_all [Extension.parse, renderItem, valueTok]

/-- Specialization of `ext_loop_parse_ok` to a parsed `debug` key. -/
theorem ext_loop_ok_debug (debug async_trait mockable : Bool) (mock_deps : Option String)
    (rest rest2 : List Tok) (b : Bool)
    (h : Extension.parse rest = Except.ok (Extension.Debug b, rest2)) :
    ext_loop debug async_trait mockable mock_deps (Tok.comma :: rest) =
      ext_loop b async_trait mockable mock_deps rest2 := by
  simpa using ext_loop_parse_ok debug async_trait mockable mock_deps rest rest2
    (Extension.Debug b) h

/-- Specialization of `ext_loop_parse_ok` to a parsed `async_trait` key. -/
theorem ext_loop_ok_async (debug async_trait mockable : Bool) (mock_deps : Option String)
    (rest rest2 : List Tok) (b : Bool)
    (h : Extension.parse rest = Except.ok (Extension.AsyncTrait b, rest2)) :
    ext_loop debug async_trait mockable mock_deps (Tok.comma :: rest) =
      ext_loop debug b mockable mock_deps rest2 := by
  simpa using ext_loop_parse_ok debug async_trait mockable mock_deps rest rest2
    (Extension.AsyncTrait b) h

/-- Specialization of `ext_loop_parse_ok` to a parsed `mockable` key. -/
theorem ext_loop_ok_mockable (debug async_trait mockable : Bool) (mock_deps : Option String)
    (rest rest2 : List Tok) (b : Bool)
    (h : Extension.parse rest = Except.ok (Extension.Mockable b, rest2)) :
    ext_loop debug async_trait mockable mock_deps (Tok.comma :: rest) =
      ext_loop debug async_trait b mock_deps rest2 := by
  simpa using ext_loop_parse_ok debug async_trait mockable mock_deps rest rest2
    (Extension.Mockable b) h

/-- Specialization of `ext_loop_parse_ok` to a parsed `mock_deps_as` key. -/
theorem ext_loop_ok_mock_deps (debug async_trait mockable : Bool) (mock_deps : Option String)
    (rest rest2 : List Tok) (i : String)
    (h : Extension.parse rest = Except.ok (Extension.MockDepsAs i, rest2)) :
    ext_loop debug async_trait mockable mock_deps (Tok.comma :: rest) =
      ext_loop debug async_trait mockable (some i) rest2 := by
  simpa using ext_loop_parse_ok debug async_trait mockable mock_deps rest rest2
    (Extension.MockDepsAs i) h

/-- The rendered token stream of an option list never starts with `=`
(it is empty or starts with a comma). -/
theorem renderItems_no_eq (items : List ExtItem) :
    ∀ r, renderItems items ≠ Tok.eq :: r := by
  cases items with
  | nil => intro r h; cases h
  | cons it rest => intro r h; simp [renderItems] at h

/-- Running the loop over a rendered list of valid items succeeds,
consumes everything, and leaves in each option variable the value of
the last assignment to its key (starting from the given defaults):
later assignments overwrite earlier ones. -/
theorem ext_loop_valid (items : List ExtItem) (debug async_trait mockable : Bool)
    (mock_deps : Option String) (hvalid : ∀ it ∈ items, validItem it = true) :
    ext_loop debug async_trait mockable mock_deps (renderItems items) =
      Except.ok ((lastBoolOr debug ("debug") items,
                  lastBoolOr async_trait ("async_trait") items,
                  lastBoolOr mockable ("mockable") items,
                  lastIdentOr mock_deps ("mock_deps_as") items), []) := by
  induction items generalizing debug async_trait mockable mock_deps with
  | nil =>
    simp [renderItems, lastBoolOr, lastIdentOr, ext_loop_nil]
  | cons it rest ih =>
    obtain ⟨k, v⟩ := it
    have hit : validItem (k, v) = true := hvalid (k, v) (by simp)
    have hks : recognizedKey k = true ∧ wellShapedItem (k, v) = true := by
      unfold validItem at hit
      simp only [Bool.and_eq_true] at hit
      exact hit
    obtain ⟨hk, hshape⟩ := hks
    have hrest : ∀ it2 ∈ rest, validItem it2 = true := by
      intro it2 h2
      exact hvalid it2 (by simp [h2])
    unfold recognizedKey at hk
    simp only [Bool.or_eq_true, decide_eq_true_eq] at hk
    rcases hk with ((hk | hk) | hk) | hk <;> subst hk
    · -- debug
      unfold wellShapedItem at hshape
      simp only [String.reduceEq, reduceIte] at hshape
      match v, hshape with
      | some (ExtValue.litBool b), _ =>
        have hep := ep_render_valid ("debug") (ExtValue.litBool b) (renderItems rest)
          (by simp [validItem, recognizedKey, wellShapedItem])
        rw [show extOf ("debug") (ExtValue.litBool b) = Extension.Debug b from rfl] at hep
        rw [show renderItems (("debug", some (ExtValue.litBool b)) :: rest) =
          Tok.comma :: (renderItem ("debug", some (ExtValue.litBool b)) ++ renderItems rest) from rfl]
        rw [ext_loop_ok_debug _ _ _ _ _ _ _ hep]
        rw [ih b async_trait mockable mock_deps hrest]
        simp [lastBoolOr, lastIdentOr]
    · -- async_trait
      unfold wellShapedItem at hshape
      simp only [String.reduceEq, reduceIte] at hshape
      match v, hshape with
      | some (ExtValue.litBool b), _ =>
        have hep := ep_render_valid ("async_trait") (ExtValue.litBool b) (renderItems rest)
          (by simp [validItem, recognizedKey, wellShapedItem])
        rw [show extOf ("async_trait") (ExtValue.litBool b) = Extension.AsyncTrait b from rfl] at hep
        rw [show renderItems (("async_trait", some (ExtValue.litBool b)) :: rest) =
          Tok.comma :: (renderItem ("async_trait", some (ExtValue.litBool b)) ++ renderItems rest) from rfl]
        rw [ext_loop_ok_async _ _ _ _ _ _ _ hep]
        rw [ih debug b mockable mock_deps hrest]
        simp [lastBoolOr, lastIdentOr]
    · -- mockable
      unfold wellShapedItem at hshape
      simp only [String.reduceEq, reduceIte] at hshape
      match v, hshape with
      | some (ExtValue.litBool b), _ =>
        have hep := ep_render_valid ("mockable") (ExtValue.litBool b) (renderItems rest)
          (by simp [validItem, recognizedKey, wellShapedItem])
        rw [show extOf ("mockable") (ExtValue.litBool b) = Extension.Mockable b from rfl] at hep
        rw [show renderItems (("mockable", some (ExtValue.litBool b)) :: rest) =
          Tok.comma :: (renderItem ("mockable", some (ExtValue.litBool b)) ++ renderItems rest) from rfl]
        rw [ext_loop_ok_mockable _ _ _ _ _ _ _ hep]
        rw [ih debug async_trait b mock_deps hrest]
        simp [lastBoolOr, lastIdentOr]
    · -- mock_deps_as
      unfold wellShapedItem at hshape
      simp only [String.reduceEq, reduceIte] at hshape
      match v, hshape with
      | some (ExtValue.identVal s), _ =>
        have hep := ep_render_valid ("mock_deps_as") (ExtValue.identVal s) (renderItems rest)
          (by simp [validItem, recognizedKey, wellShapedItem])
        rw [show extOf ("mock_deps_as") (ExtValue.identVal s) = Extension.MockDepsAs s from rfl] at hep
        rw [show renderItems (("mock_deps_as", some (ExtValue.identVal s)) :: rest) =
          Tok.comma :: (renderItem ("mock_deps_as", some (ExtValue.identVal s)) ++ renderItems rest) from rfl]
        rw [ext_loop_ok_mock_deps _ _ _ _ _ _ _ hep]
        rw [ih debug async_trait mockable (some s) hrest]
        simp [lastBoolOr, lastIdentOr]

/-- One loop iteration over any valid item just moves to the rest of
the stream with some updated option state. -/
theorem ext_loop_step_valid (debug async_trait mockable : Bool) (mock_deps : Option String)
    (it : ExtItem) (tl : List Tok) (hv : validItem it = true) :
    ∃ d2 a2 m2 md2, ext_loop debug async_trait mockable mock_deps
      (Tok.comma :: (renderItem it ++ tl)) = ext_loop d2 a2 m2 md2 tl := by
  obtain ⟨k, v⟩ := it
  have hks : recognizedKey k = true ∧ wellShapedItem (k, v) = true := by
    unfold validItem at hv
    simp only [Bool.and_eq_true] at hv
    exact hv
  obtain ⟨hk, hshape⟩ := hks
  unfold recognizedKey at hk
  simp only [Bool.or_eq_true, decide_eq_true_eq] at hk
  rcases hk with ((hk | hk) | hk) | hk <;> subst hk <;>
    unfold wellShapedItem at hshape <;>
    simp only [String.reduceEq, reduceIte] at hshape
  · match v, hshape with
    | some (ExtValue.litBool b), _ =>
      have hep := ep_render_valid ("debug") (ExtValue.litBool b) tl
        (by simp [validItem, recognizedKey, wellShapedItem])
      rw [show extOf ("debug") (ExtValue.litBool b) = Extension.Debug b from rfl] at hep
      exact ⟨b, async_trait, mockable, mock_deps, ext_loop_ok_debug _ _ _ _ _ _ _ hep⟩
  · match v, hshape with
    | some (ExtValue.litBool b), _ =>
      have hep := ep_render_valid ("async_trait") (ExtValue.litBool b) tl
        (by simp [validItem, recognizedKey, wellShapedItem])
      rw [show extOf ("async_trait") (ExtValue.litBool b) = Extension.AsyncTrait b from rfl] at hep
      exact ⟨debug, b, mockable, mock_deps, ext_loop_ok_async _ _ _ _ _ _ _ hep⟩
  · match v, hshape with
    | some (ExtValue.litBool b), _ =>
      have hep := ep_render_valid ("mockable") (ExtValue.litBool b) tl
        (by simp [validItem, recognizedKey, wellShapedItem])
      rw [show extOf ("mockable") (ExtValue.litBool b) = Extension.Mockable b from rfl] at hep
      exact ⟨debug, async_trait, b, mock_deps, ext_loop_ok_mockable _ _ _ _ _ _ _ hep⟩
  · match v, hshape with
    | some (ExtValue.identVal s), _ =>
      have hep := ep_render_valid ("mock_deps_as") (ExtValue.identVal s) tl
        (by simp [validItem, recognizedKey, wellShapedItem])
      rw [show extOf ("mock_deps_as") (ExtValue.identVal s) = Extension.MockDepsAs s from rfl] at hep
      exact ⟨debug, async_trait, mockable, some s, ext_loop_ok_mock_deps _ _ _ _ _ _ _ hep⟩

/-- When every item before it is valid, the first item carrying an
unrecognized key (with an `= value` assignment) makes the loop fail
with exactly the unknown-extension error for that key. -/
theorem ext_loop_unknown (pre : List ExtItem) (k : String) (v : ExtValue)
    (rest : List ExtItem) (debug async_trait mockable : Bool) (mock_deps : Option String)
    (hpre : ∀ it ∈ pre, validItem it = true) (hk : recognizedKey k = false) :
    ext_loop debug async_trait mockable mock_deps
      (renderItems (pre ++ (k, some v) :: rest)) =
      Except.error (SynError.custom ("Unkonwn entrait extension \"" ++ k ++ "\"")) := by
  induction pre generalizing debug async_trait mockable mock_deps with
  | nil =>
    rw [show renderItems ([] ++ (k, some v) :: rest) =
      Tok.comma :: (renderItem (k, some v) ++ renderItems rest) from rfl]
    exact ext_loop_parse_err _ _ _ _ _ _ (ep_render_unknown k v (renderItems rest) hk)
  | cons it pre2 ih =>
    have hit : validItem it = true := hpre it (by simp)
    have hpre2 : ∀ it2 ∈ pre2, validItem it2 = true := fun it2 h2 => hpre it2 (by simp [h2])
    rw [show renderItems ((it :: pre2) ++ (k, some v) :: rest) =
      Tok.comma :: (renderItem it ++ renderItems (pre2 ++ (k, some v) :: rest)) from rfl]
    obtain ⟨d2, a2, m2, md2, hstep⟩ :=
      ext_loop_step_valid debug async_trait mockable mock_deps it
        (renderItems (pre2 ++ (k, some v) :: rest)) hit
    rw [hstep]
    exact ih d2 a2 m2 md2 hpre2

/-- If any item in the option list carries an unrecognized key, the
loop fails with some error — it never produces an option state. -/
theorem ext_loop_contains_unknown (items : List ExtItem) (debug async_trait mockable : Bool)
    (mock_deps : Option String)
    (h : ∃ it ∈ items, recognizedKey it.1 = false) :
    ∃ e, ext_loop debug async_trait mockable mock_deps (renderItems items) =
      Except.error e := by
  induction items generalizing debug async_trait mockable mock_deps with
  | nil => simp at h
  | cons it rest ih =>
    obtain ⟨k, v⟩ := it
    by_cases hval : validItem (k, v) = true
    · have hrec : recognizedKey k = true := by
        unfold validItem at hval
        simp only [Bool.and_eq_true] at hval
        exact hval.1
      have hinrest : ∃ it2 ∈ rest, recognizedKey it2.1 = false := by
        rcases h with ⟨it2, hmem, hunk⟩
        rcases List.mem_cons.mp hmem with heq | hmem2
        · subst heq; rw [hrec] at hunk; cases hunk
        · exact ⟨it2, hmem2, hunk⟩
      rw [show renderItems ((k, v) :: rest) =
        Tok.comma :: (renderItem (k, v) ++ renderItems rest) from rfl]
      obtain ⟨d2, a2, m2, md2, hstep⟩ :=
        ext_loop_step_valid debug async_trait mockable mock_deps (k, v)
          (renderItems rest) hval
      rw [hstep]
      exact ih d2 a2 m2 md2 hinrest
    · rw [show renderItems ((k, v) :: rest) =
        Tok.comma :: (renderItem (k, v) ++ renderItems rest) from rfl]
      rcases v with _ | vv
      · exact ⟨_, ext_loop_parse_err _ _ _ _ _ _
          (ep_render_bare k (renderItems rest) (renderItems_no_eq rest))⟩
      · by_cases hrec : recognizedKey k = true
        · have hbad : wellShapedItem (k, some vv) = false := by
            cases hwb : wellShapedItem (k, some vv) with
            | false => rfl
            | true => exact absurd (by unfold validItem; simp [hrec, hwb]) hval
          obtain ⟨e, he⟩ := ep_render_illshaped k vv (renderItems rest) hrec hbad
          exact ⟨e, ext_loop_parse_err _ _ _ _ _ _ he⟩
        · have hrec2 : recognizedKey k = false := by
            cases hr : recognizedKey k with
            | false => rfl
            | true => exact absurd hr hrec
          exact ⟨_, ext_loop_parse_err _ _ _ _ _ _
            (ep_render_unknown k vv (renderItems rest) hrec2)⟩

/-- When the stream does not start with `for`, the peek block leaves
the stream untouched and yields no implementation target. -/
theorem parse_impl_target_not_for (input : List Tok)
    (h : ∀ r, input ≠ Tok.forKw :: r) :
    parse_impl_target input = Except.ok (none, input) := by
  rcases input with _ | ⟨t, r⟩
  · rfl
  · cases t
    case forKw => exact absurd rfl (h r)
    all_goals rfl

/-- A rendered option list never starts with the `for` keyword. -/
theorem renderItems_no_for (items : List ExtItem) :
    ∀ r, renderItems items ≠ Tok.forKw :: r := by
  cases items with
  | nil => intro r h; cases h
  | cons it rest => intro r h; simp [renderItems] at h

/-- `EntraitAttr::parse` on a trait identifier followed by a rendered
option list reduces to the extension loop, with no `for` target. -/
theorem attr_parse_items (t : String) (items : List ExtItem) :
    EntraitAttr.parse (Tok.ident t :: renderItems items) =
      match ext_loop false false false none (renderItems items) with
      | Except.error e => Except.error e
      | Except.ok ((debug, async_trait, mockable, mock_deps), leftover) =>
        Except.ok ({ trait_ident := t, impl_target_type := none, debug := debug,
                     async_trait := async_trait, mockable := mockable,
                     mock_deps_as := mock_deps }, leftover) := by
  unfold EntraitAttr.parse
  rcases hloop : ext_loop false false false none (renderItems items) with e | ⟨⟨d, a, m, md⟩, leftover⟩ <;>
    simp [parseIdentTok,
      parse_impl_target_not_for (renderItems items) (renderItems_no_for items), hloop]

/-- `EntraitAttr::parse` on a fully valid option list: succeeds,
consumes everything, and each option field holds the last assignment
to its key (or the default when the key is never assigned). -/
theorem attr_parse_valid (t : String) (items : List ExtItem)
    (hvalid : ∀ it ∈ items, validItem it = true) :
    EntraitAttr.parse (Tok.ident t :: renderItems items) =
      Except.ok ({ trait_ident := t, impl_target_type := none,
                   debug := lastBoolOr false ("debug") items,
                   async_trait := lastBoolOr false ("async_trait") items,
                   mockable := lastBoolOr false ("mockable") items,
                   mock_deps_as := lastIdentOr none ("mock_deps_as") items }, []) := by
  rw [attr_parse_items, ext_loop_valid items false false false none hvalid]

/-- The identifier bound by a parameter, when the parameter is a typed
plain-identifier binding; `none` for receivers and for destructuring
or wildcard patterns. -/
def identOfArg : FnArg → Option String
  | FnArg.typed (Pat.ident n) _ => some n
  | _ => none

/-- At a nonzero index the closure ignores the index, so any two
nonzero indices give the same result. -/
theorem closure_pos (i j : Nat) (hi : i ≠ 0) (hj : j ≠ 0) (a : FnArg) :
    call_param_closure i a = call_param_closure j a := by
  cases a <;> simp [call_param_closure, hi, hj]

/-- Collecting the closure over the tail (enumerated from any nonzero
index) succeeds and returns exactly the bound identifiers, in order,
whenever every tail parameter binds a plain identifier. -/
theorem collect_params_ok (tail : List FnArg) (names : List String) (k : Nat)
    (hk : k ≠ 0) (hid : tail.map identOfArg = names.map some) :
    collectResults ((List.enumFrom k tail).map (fun p => call_param_closure p.1 p.2)) =
      Except.ok (names.map CallArg.ident) := by
  induction tail generalizing names k with
  | nil =>
    cases names with
    | nil => simp [List.enumFrom, collectResults]
    | cons n ns => simp at hid
  | cons a t ih =>
    cases names with
    | nil => simp at hid
    | cons n ns =>
      simp only [List.map_cons, List.cons.injEq] at hid
      obtain ⟨h1, h2⟩ := hid
      cases a with
      | receiver r m => simp [identOfArg] at h1
      | typed pat ty =>
        cases pat with
        | ident nm =>
          simp only [identOfArg, Option.some.injEq] at h1
          subst h1
          simp only [List.enumFrom, List.map_cons]
          rw [show call_param_closure k (FnArg.typed (Pat.ident nm) ty) =
            Except.ok (CallArg.ident nm) by simp [call_param_closure, hk]]
          simp only [collectResults]
          rw [ih ns (k + 1) (by omega) h2]
        | wild => simp [identOfArg] at h1
        | tuplePat l => simp [identOfArg] at h1

/-- Collecting over a tail whose first offending parameter (after
identifier-binding ones) makes the closure fail, fails with exactly
that parameter's error. -/
theorem collect_params_err (pre : List FnArg) (bad : FnArg) (rest : List FnArg)
    (k : Nat) (e : SynError) (hk : k ≠ 0)
    (hpre : ∀ a ∈ pre, (identOfArg a).isSome)
    (hbad : call_param_closure 1 bad = Except.error e) :
    collectResults ((List.enumFrom k (pre ++ bad :: rest)).map
      (fun p => call_param_closure p.1 p.2)) = Except.error e := by
  induction pre generalizing k with
  | nil =>
    simp only [List.nil_append, List.enumFrom, List.map_cons]
    rw [closure_pos k 1 hk (by omega) bad, hbad]
    simp [collectResults]
  | cons a pre2 ih =>
    have ha : (identOfArg a).isSome := hpre a (by simp)
    have hpre2 : ∀ a2 ∈ pre2, (identOfArg a2).isSome := fun a2 h2 => hpre a2 (by simp [h2])
    cases a with
    | receiver r m => simp [identOfArg] at ha
    | typed pat ty =>
      cases pat with
      | ident nm =>
        simp only [List.cons_append, List.enumFrom, List.map_cons]
        rw [show call_param_closure k (FnArg.typed (Pat.ident nm) ty) =
          Except.ok (CallArg.ident nm) by simp [call_param_closure, hk]]
        simp only [collectResults]
        simp only [List.append_eq]
        rw [ih (k + 1) (by omega) hpre2]
      | wild => simp [identOfArg] at ha
      | tuplePat l => simp [identOfArg] at ha

/-- `extract_call_param_list` on a signature whose tail parameters all
bind plain identifiers: `self` followed by exactly those identifiers
in order (whatever the first parameter is). -/
theorem extract_call_ok (sig : Signature) (a0 : FnArg) (tail : List FnArg)
    (names : List String) (h : sig.inputs = a0 :: tail)
    (hid : tail.map identOfArg = names.map some) :
    extract_call_param_list sig = Except.ok (CallArg.selfArg :: names.map CallArg.ident) := by
  unfold extract_call_param_list
  rw [h]
  simp only [List.enum, List.enumFrom, List.map_cons]
  rw [show call_param_closure 0 a0 = Except.ok CallArg.selfArg by
    simp [call_param_closure]]
  simp only [collectResults]
  rw [collect_params_ok tail names 1 (by omega) hid]

/-- `extract_call_param_list` on a signature whose first offending
non-slot parameter makes the closure fail, fails with that error
(whatever the first parameter is, which is never examined). -/
theorem extract_call_err (sig : Signature) (a0 : FnArg) (pre : List FnArg)
    (bad : FnArg) (rest : List FnArg) (e : SynError)
    (h : sig.inputs = a0 :: (pre ++ bad :: rest))
    (hpre : ∀ a ∈ pre, (identOfArg a).isSome)
    (hbad : call_param_closure 1 bad = Except.error e) :
    extract_call_param_list sig = Except.error e := by
  unfold extract_call_param_list
  rw [h]
  simp only [List.enum, List.enumFrom, List.map_cons]
  rw [show call_param_closure 0 a0 = Except.ok CallArg.selfArg by
    simp [call_param_closure]]
  simp only [collectResults]
  rw [collect_params_err pre bad rest 1 e (by omega) hpre hbad]

/-- Example signature `fn foo(deps: &D, n: i32) -> i32`. -/
def sig_ex : Signature :=
  { asyncness := false, ident := "foo",
    inputs := [FnArg.typed (Pat.ident ("deps")) (Ty.ref (Ty.path ("D"))),
               FnArg.typed (Pat.ident ("n")) (Ty.path ("i32"))],
    output := some (Ty.path ("i32")) }

/-- Example signature with an empty parameter list. -/
def sig_empty : Signature :=
  { asyncness := false, ident := "f", inputs := [], output := none }

/-- C1: for every signature with a non-empty parameter list (the only
mode the code has: the dependency slot is always rewritten), the
synthesized trait-method parameter list is `&self` followed by exactly
the original parameters at positions 1..n-1 in order, so its
non-receiver parameter count is the original count minus one. -/
theorem c1_arity_law (sig : Signature) (h : sig.inputs ≠ []) :
    extract_trait_fn_inputs sig = Except.ok (amp_self :: sig.inputs.tail) ∧
    (amp_self :: sig.inputs.tail).length - 1 = sig.inputs.length - 1 := by
  rcases hinp : sig.inputs with _ | ⟨a, t⟩
  · exact absurd hinp h
  · constructor
    · unfold extract_trait_fn_inputs
      rw [hinp]
      simp
    · simp [hinp]

/-- C1 witness at `sig_ex`. -/
theorem c1_arity_law_witness :
    sig_ex.inputs ≠ [] ∧
    extract_trait_fn_inputs sig_ex = Except.ok (amp_self :: sig_ex.inputs.tail) :=
  ⟨by decide, (c1_arity_law sig_ex (by decide)).1⟩

/-- C2: for every signature whose parameters at positions 1..n-1 all
bind plain identifiers, the reconstructed call-argument list is `self`
followed by exactly those identifiers in their original positional
order — nothing dropped, reordered, or renamed. -/
theorem c2_call_param_identity (sig : Signature) (a0 : FnArg) (tail : List FnArg)
    (names : List String) (h : sig.inputs = a0 :: tail)
    (hid : tail.map identOfArg = names.map some) :
    extract_call_param_list sig = Except.ok (CallArg.selfArg :: names.map CallArg.ident) :=
  extract_call_ok sig a0 tail names h hid

/-- C2 witness at `sig_ex`. -/
theorem c2_call_param_identity_witness :
    extract_call_param_list sig_ex = Except.ok [CallArg.selfArg, CallArg.ident ("n")] := by
  have h := c2_call_param_identity sig_ex
    (FnArg.typed (Pat.ident ("deps")) (Ty.ref (Ty.path ("D"))))
    [FnArg.typed (Pat.ident ("n")) (Ty.path ("i32"))] ["n"] rfl rfl
  exact h

/-- C3: a successful `EntraitFn::parse` stores the parsed attributes,
visibility, signature and body exactly as given; the trait-method
inputs and call-argument list are computed from that same signature,
which stays unchanged (the `&self` rewrite happens on a clone). -/
theorem c3_original_unmodified (fn_attrs : List String) (fn_vis : Visibility)
    (fn_sig : Signature) (fn_body : String) (f : EntraitFn)
    (h : EntraitFn.parse fn_attrs fn_vis fn_sig fn_body = Except.ok f) :
    f.fn_attrs = fn_attrs ∧ f.fn_vis = fn_vis ∧ f.fn_sig = fn_sig ∧ f.fn_body = fn_body ∧
    extract_trait_fn_inputs fn_sig = Except.ok f.trait_fn_inputs ∧
    extract_call_param_list fn_sig = Except.ok f.call_param_list := by
  unfold EntraitFn.parse at h
  split at h
  · simp at h
  · rename_i tfi htfi
    split at h
    · simp at h
    · rename_i cpl hcpl
      injection h with h2
      subst h2
      exact ⟨rfl, rfl, rfl, rfl, htfi, hcpl⟩

/-- The concrete `EntraitFn` produced for `sig_ex`. -/
def fn_ex : EntraitFn :=
  { fn_attrs := [], fn_vis := Visibility.inherited, fn_sig := sig_ex, fn_body := "body",
    trait_fn_inputs := [amp_self, FnArg.typed (Pat.ident ("n")) (Ty.path ("i32"))],
    call_param_list := [CallArg.selfArg, CallArg.ident ("n")] }

/-- C3 witness at `sig_ex`. -/
theorem c3_original_unmodified_witness :
    fn_ex.fn_sig = sig_ex ∧ fn_ex.fn_attrs = [] ∧ fn_ex.fn_body = "body" := by
  have h := c3_original_unmodified [] Visibility.inherited sig_ex ("body") fn_ex rfl
  exact ⟨h.2.2.1, h.1, h.2.2.2.1⟩

/-- C4: a signature with an empty parameter list makes
`extract_trait_fn_inputs` fail with the missing-dependency-parameter
error, and the whole `EntraitFn::parse` fails with that same error, so
no model is produced for the declaration. -/
theorem c4_missing_dependency_parameter (sig : Signature) (fn_attrs : List String)
    (fn_vis : Visibility) (fn_body : String) (h : sig.inputs = []) :
    extract_trait_fn_inputs sig =
      Except.error (SynError.custom ("Function must take at least one parameter")) ∧
    EntraitFn.parse fn_attrs fn_vis sig fn_body =
      Except.error (SynError.custom ("Function must take at least one parameter")) := by
  have h1 : extract_trait_fn_inputs sig =
      Except.error (SynError.custom ("Function must take at least one parameter")) := by
    unfold extract_trait_fn_inputs
    rw [h]
    rfl
  refine ⟨h1, ?_⟩
  unfold EntraitFn.parse
  rw [h1]

/-- C4 witness at `sig_empty`. -/
theorem c4_missing_dependency_parameter_witness :
    EntraitFn.parse [] Visibility.inherited sig_empty ("b") =
      Except.error (SynError.custom ("Function must take at least one parameter")) :=
  (c4_missing_dependency_parameter sig_empty [] Visibility.inherited ("b") rfl).2

/-- Whether an error is the unknown-option ("Unkonwn entrait
extension") error raised by `Extension::parse`. -/
def SynError.isUnknownOption : SynError → Bool
  | SynError.custom msg => msg.startsWith ("Unkonwn entrait extension")
  | _ => false

/-- C5 counterexample: an option list whose only item is the bare
unrecognized key `foo` makes resolution fail, but with the missing-`=`
parse error, not with an unknown-option error at that key (the parser
demands `=` before it ever looks at the key string). -/
theorem c5_counterexample :
    EntraitAttr.parse [Tok.ident ("Trait"), Tok.comma, Tok.ident ("foo")] =
      Except.error (SynError.parseError ("expected token eq")) ∧
    SynError.isUnknownOption (SynError.parseError ("expected token eq")) = false := by
  constructor
  · have hb := ep_render_bare ("foo") [] (by intro r hcontra; cases hcontra)
    have hl : ext_loop false false false none
        (renderItems [(("foo"), (none : Option ExtValue))]) =
        Except.error (SynError.parseError ("expected token eq")) := by
      rw [show renderItems [(("foo"), (none : Option ExtValue))] =
        Tok.comma :: (renderItem (("foo"), none) ++ []) from rfl]
      exact ext_loop_parse_err _ _ _ _ _ _ hb
    have ha := attr_parse_items ("Trait") [(("foo"), none)]
    rw [hl] at ha
    exact ha
  · rfl

/-- C5 (amended): when every item before the first unrecognized key is
a recognized key with a well-shaped `= value` assignment and the
unrecognized key itself carries an `= value` assignment, resolution
fails with the unknown-option error at that key; moreover any option
list containing an unrecognized key — in whatever form — never
resolves to a configuration. -/
theorem c5_unknown_option_rejection (t k : String) (v : ExtValue)
    (pre rest : List ExtItem)
    (hpre : ∀ it ∈ pre, validItem it = true)
    (hk : recognizedKey k = false) :
    EntraitAttr.parse (Tok.ident t :: renderItems (pre ++ (k, some v) :: rest)) =
      Except.error (SynError.custom ("Unkonwn entrait extension \"" ++ k ++ "\"")) ∧
    (∀ (items : List ExtItem), (∃ it ∈ items, recognizedKey it.1 = false) →
      ∀ (attr : EntraitAttr) (leftover : List Tok),
        EntraitAttr.parse (Tok.ident t :: renderItems items) ≠
          Except.ok (attr, leftover)) := by
  constructor
  · rw [attr_parse_items, ext_loop_unknown pre k v rest false false false none hpre hk]
  · intro items hunk attr leftover hok
    obtain ⟨e, he⟩ := ext_loop_contains_unknown items false false false none hunk
    rw [attr_parse_items, he] at hok
    simp at hok

/-- C5 witness: `Trait, foo = true` fails with the unknown-option
error naming `foo`. -/
theorem c5_unknown_option_rejection_witness :
    EntraitAttr.parse [Tok.ident ("Trait"), Tok.comma, Tok.ident ("foo"), Tok.eq,
        Tok.litBool true] =
      Except.error (SynError.custom ("Unkonwn entrait extension \"" ++ "foo" ++ "\"")) := by
  have h := c5_unknown_option_rejection ("Trait") ("foo") (ExtValue.litBool true) [] []
    (by intro it hit; cases hit) rfl
  exact h.1

/-- C6 counterexample: assigning `debug` twice is not rejected — the
attribute resolves successfully and the later assignment wins. -/
theorem c6_counterexample :
    EntraitAttr.parse [Tok.ident ("T"), Tok.comma, Tok.ident ("debug"), Tok.eq,
        Tok.litBool true, Tok.comma, Tok.ident ("debug"), Tok.eq, Tok.litBool false] =
      Except.ok ({ trait_ident := "T", impl_target_type := none, debug := false,
                   async_trait := false, mockable := false, mock_deps_as := none }, []) := by
  have h := attr_parse_valid ("T")
    [(("debug"), some (ExtValue.litBool true)), (("debug"), some (ExtValue.litBool false))]
    (by decide)
  exact h

/-- C6 (amended): duplicate assignments of the same recognized key are
accepted, not rejected: the loop overwrites the option variable on
every assignment, so for any fully valid option list each
configuration field holds the value of the last assignment to its key
(or its default when never assigned). -/
theorem c6_duplicate_option_last_wins (t : String) (items : List ExtItem)
    (hvalid : ∀ it ∈ items, validItem it = true) :
    EntraitAttr.parse (Tok.ident t :: renderItems items) =
      Except.ok ({ trait_ident := t, impl_target_type := none,
                   debug := lastBoolOr false ("debug") items,
                   async_trait := lastBoolOr false ("async_trait") items,
                   mockable := lastBoolOr false ("mockable") items,
                   mock_deps_as := lastIdentOr none ("mock_deps_as") items }, []) :=
  attr_parse_valid t items hvalid

/-- C6 witness: `mockable = true, mockable = false, debug = true`
resolves with `mockable = false` (last wins) and `debug = true`. -/
theorem c6_duplicate_option_last_wins_witness :
    EntraitAttr.parse (Tok.ident ("T2") :: renderItems
      [(("mockable"), some (ExtValue.litBool true)),
       (("mockable"), some (ExtValue.litBool false)),
       (("debug"), some (ExtValue.litBool true))]) =
      Except.ok ({ trait_ident := "T2", impl_target_type := none, debug := true,
                   async_trait := false, mockable := false, mock_deps_as := none }, []) := by
  have h := c6_duplicate_option_last_wins ("T2")
    [(("mockable"), some (ExtValue.litBool true)),
     (("mockable"), some (ExtValue.litBool false)),
     (("debug"), some (ExtValue.litBool true))]
    (by decide)
  exact h

/-- C7: the repository's own test (`tests/test_unimock.rs` line 245)
and documentation use the bare boolean option `async_trait`, but
`Extension::parse` unconditionally requires `=` after the key, so the
bare key is rejected with a missing-`=` parse error instead of being
treated as `true`. -/
theorem c7_bare_option_rejected :
    EntraitAttr.parse [Tok.ident ("Bar"), Tok.comma, Tok.ident ("async_trait")] =
      Except.error (SynError.parseError ("expected token eq")) := by
  have hb := ep_render_bare ("async_trait") [] (by intro r hcontra; cases hcontra)
  have hl : ext_loop false false false none
      (renderItems [(("async_trait"), (none : Option ExtValue))]) =
      Except.error (SynError.parseError ("expected token eq")) := by
    rw [show renderItems [(("async_trait"), (none : Option ExtValue))] =
      Tok.comma :: (renderItem (("async_trait"), none) ++ []) from rfl]
    exact ext_loop_parse_err _ _ _ _ _ _ hb
  have ha := attr_parse_items ("Bar") [(("async_trait"), none)]
  rw [hl] at ha
  exact ha

/-- C8: a receiver-shaped parameter at any position other than 0 (and
preceded only by plain-identifier parameters after the slot) makes
call-argument reconstruction fail with the "Unexpected receiver arg"
error; a receiver at position 0 never triggers it — reconstruction
succeeds there when the remaining parameters bind identifiers. -/
theorem c8_unexpected_receiver (sig sig2 : Signature) (a0 : FnArg)
    (pre rest tail2 : List FnArg) (r m r2 m2 : Bool) (names2 : List String)
    (h1 : sig.inputs = a0 :: (pre ++ FnArg.receiver r m :: rest))
    (hpre : ∀ a ∈ pre, (identOfArg a).isSome)
    (h2 : sig2.inputs = FnArg.receiver r2 m2 :: tail2)
    (htail : tail2.map identOfArg = names2.map some) :
    extract_call_param_list sig =
      Except.error (SynError.custom ("Unexpected receiver arg")) ∧
    extract_call_param_list sig2 =
      Except.ok (CallArg.selfArg :: names2.map CallArg.ident) := by
  constructor
  · exact extract_call_err sig a0 pre (FnArg.receiver r m) rest _ h1 hpre rfl
  · exact extract_call_ok sig2 (FnArg.receiver r2 m2) tail2 names2 h2 htail

/-- `fn g(deps: D, self)`: a receiver at position 1. -/
def sig_recv_pos1 : Signature :=
  { asyncness := false, ident := "g",
    inputs := [FnArg.typed (Pat.ident ("deps")) (Ty.path ("D")), FnArg.receiver true false],
    output := none }

/-- A receiver in the position-0 slot, identifier parameter after. -/
def sig_recv_pos0 : Signature :=
  { asyncness := false, ident := "h",
    inputs := [FnArg.receiver true false, FnArg.typed (Pat.ident ("n")) (Ty.path ("i32"))],
    output := none }

/-- C8 witness at `sig_recv_pos1` and `sig_recv_pos0`. -/
theorem c8_unexpected_receiver_witness :
    extract_call_param_list sig_recv_pos1 =
      Except.error (SynError.custom ("Unexpected receiver arg")) ∧
    extract_call_param_list sig_recv_pos0 =
      Except.ok [CallArg.selfArg, CallArg.ident ("n")] := by
  have h := c8_unexpected_receiver sig_recv_pos1 sig_recv_pos0
    (FnArg.typed (Pat.ident ("deps")) (Ty.path ("D"))) [] []
    [FnArg.typed (Pat.ident ("n")) (Ty.path ("i32"))]
    true false true false ["n"] rfl (by intro a ha; cases ha) rfl rfl
  exact h

/-- C9: a non-identifier (destructuring or wildcard) pattern at any
position other than 0 (preceded only by identifier parameters after
the slot) makes call-argument reconstruction fail with the "Expected
ident for function argument" error; the position-0 slot's pattern is
never subject to this check — reconstruction succeeds even when it is
a non-identifier pattern, provided the tail binds identifiers. -/
theorem c9_non_identifier_pattern (sig sig2 : Signature) (a0 : FnArg)
    (pre rest tail2 : List FnArg) (p p2 : Pat) (ty ty2 : Ty) (names2 : List String)
    (h1 : sig.inputs = a0 :: (pre ++ FnArg.typed p ty :: rest))
    (hp : identOfArg (FnArg.typed p ty) = none)
    (hpre : ∀ a ∈ pre, (identOfArg a).isSome)
    (h2 : sig2.inputs = FnArg.typed p2 ty2 :: tail2)
    (hp2 : identOfArg (FnArg.typed p2 ty2) = none)
    (htail : tail2.map identOfArg = names2.map some) :
    extract_call_param_list sig =
      Except.error (SynError.custom ("Expected ident for function argument")) ∧
    extract_call_param_list sig2 =
      Except.ok (CallArg.selfArg :: names2.map CallArg.ident) := by
  constructor
  · refine extract_call_err sig a0 pre (FnArg.typed p ty) rest _ h1 hpre ?_
    cases p with
    | ident nm => simp [identOfArg] at hp
    | wild => rfl
    | tuplePat l => rfl
  · exact extract_call_ok sig2 (FnArg.typed p2 ty2) tail2 names2 h2 htail

/-- `fn p1(deps: D, (a, b): P)`: a tuple pattern at position 1. -/
def sig_pat_pos1 : Signature :=
  { asyncness := false, ident := "p1",
    inputs := [FnArg.typed (Pat.ident ("deps")) (Ty.path ("D")),
               FnArg.typed (Pat.tuplePat (["a", "b"])) (Ty.path ("P"))],
    output := none }

/-- `fn p0(_: D, n: i32)`: a wildcard pattern in the position-0 slot. -/
def sig_pat_pos0 : Signature :=
  { asyncness := false, ident := "p0",
    inputs := [FnArg.typed Pat.wild (Ty.path ("D")),
               FnArg.typed (Pat.ident ("n")) (Ty.path ("i32"))],
    output := none }

/-- C9 witness at `sig_pat_pos1` and `sig_pat_pos0`. -/
theorem c9_non_identifier_pattern_witness :
    extract_call_param_list sig_pat_pos1 =
      Except.error (SynError.custom ("Expected ident for function argument")) ∧
    extract_call_param_list sig_pat_pos0 =
      Except.ok [CallArg.selfArg, CallArg.ident ("n")] := by
  have h := c9_non_identifier_pattern sig_pat_pos1 sig_pat_pos0
    (FnArg.typed (Pat.ident ("deps")) (Ty.path ("D"))) [] []
    [FnArg.typed (Pat.ident ("n")) (Ty.path ("i32"))]
    (Pat.tuplePat (["a", "b"])) Pat.wild (Ty.path ("P")) (Ty.path ("D")) ["n"]
    rfl rfl (by intro a ha; cases ha) rfl rfl rfl
  exact h

/-- `EntraitAttr::parse` on `T for Ty` with no further options. -/
theorem attr_parse_for_nil (t : String) (ty : Ty) :
    EntraitAttr.parse [Tok.ident t, Tok.forKw, Tok.tyTok ty] =
      Except.ok ({ trait_ident := t, impl_target_type := some ty, debug := false,
                   async_trait := false, mockable := false, mock_deps_as := none }, []) := by
  unfold EntraitAttr.parse
  simp only [parseIdentTok, parse_impl_target, parseTypeTok]
  rw [ext_loop_nil]

/-- C10: attribute parsing accepts an optional `for Type` clause right
after the trait identifier, recording the type as the implementation
target; when the next token is not `for`, the target is `None`. -/
theorem c10_for_clause (t : String) (ty : Ty) (rest rest2 leftover leftover2 : List Tok)
    (attr attr2 : EntraitAttr)
    (h1 : EntraitAttr.parse (Tok.ident t :: Tok.forKw :: Tok.tyTok ty :: rest) =
      Except.ok (attr, leftover))
    (hr : ∀ r, rest2 ≠ Tok.forKw :: r)
    (h2 : EntraitAttr.parse (Tok.ident t :: rest2) = Except.ok (attr2, leftover2)) :
    (attr.trait_ident = t ∧ attr.impl_target_type = some ty) ∧
    (attr2.trait_ident = t ∧ attr2.impl_target_type = none) := by
  constructor
  · unfold EntraitAttr.parse at h1
    simp only [parseIdentTok, parse_impl_target, parseTypeTok] at h1
    split at h1
    · simp at h1
    · injection h1 with hpair
      injection hpair with ha hb
      subst ha
      exact ⟨rfl, rfl⟩
  · unfold EntraitAttr.parse at h2
    simp only [parseIdentTok] at h2
    rw [parse_impl_target_not_for rest2 hr] at h2
    split at h2
    · simp at h2
    · rename_i impl0 input0 heq
      injection heq with hpair0
      injection hpair0 with hi hin
      subst hi
      subst hin
      split at h2
      · simp at h2
      · injection h2 with hpair
        injection hpair with ha hb
        subst ha
        exact ⟨rfl, rfl⟩

/-- C10 witness: `MyTrait for App` records `App` as the target;
`MyTrait` alone records none. -/
theorem c10_for_clause_witness :
    EntraitAttr.parse [Tok.ident ("MyTrait"), Tok.forKw, Tok.tyTok (Ty.path ("App"))] =
      Except.ok ({ trait_ident := "MyTrait", impl_target_type := some (Ty.path ("App")),
                   debug := false, async_trait := false, mockable := false,
                   mock_deps_as := none }, []) ∧
    EntraitAttr.parse [Tok.ident ("MyTrait")] =
      Except.ok ({ trait_ident := "MyTrait", impl_target_type := none, debug := false,
                   async_trait := false, mockable := false, mock_deps_as := none }, []) ∧
    (({ trait_ident := "MyTrait", impl_target_type := some (Ty.path ("App")),
        debug := false, async_trait := false, mockable := false,
        mock_deps_as := none } : EntraitAttr).impl_target_type = some (Ty.path ("App"))) := by
  have hp1 := attr_parse_for_nil ("MyTrait") (Ty.path ("App"))
  have hp2 := attr_parse_valid ("MyTrait") [] (by intro it hit; cases hit)
  have h := c10_for_clause ("MyTrait") (Ty.path ("App")) [] [] [] []
    ({ trait_ident := "MyTrait", impl_target_type := some (Ty.path ("App")),
       debug := false, async_trait := false, mockable := false, mock_deps_as := none })
    ({ trait_ident := "MyTrait", impl_target_type := none, debug := false,
       async_trait := false, mockable := false, mock_deps_as := none })
    hp1 (by intro r hc; cases hc) hp2
  exact ⟨hp1, hp2, h.1.2⟩

end Entrait
